import Mathlib

/-!
Shallow embedding of `src/fem/lor_assembly.cpp` (MFEM batched LOR assembly).

Doubles are modelled as exact rationals (`ℚ`); the global sparse matrix and
the metric-tensor buffer are modelled as total functions, with the source's
writes embedded as pointwise functional updates applied in program order.
External collaborators (mesh vertices, precomputed Jacobians, quadrature
rules, dof lists, the lexicographic permutation, refinement embeddings) are
inputs to the embedded kernels, exactly as they are inputs to the C++ code.
-/

namespace LOR

/-- The global sparse matrix, modelled by its entry values.  `SparseMatrix`
storage/finalization mechanics are out of scope; only the accumulate /
eliminate / finalize value contract is modelled. -/
abbrev Mat := ℕ → ℕ → ℚ

/-- `SparseMatrix::Add(i, j, v)`: accumulate `v` into entry `(i, j)`. -/
def matAdd (A : Mat) (i j : ℕ) (v : ℚ) : Mat :=
  fun r c => if r = i ∧ c = j then A r c + v else A r c

/-- The metric-tensor buffer `invJ`, indexed (component, quadrature point,
sub-cell index, high-order element) as in
`Reshape(invJ_data.Write(), (dim*(dim+1))/2, nq, pow(order,dim), nel_ho)`. -/
abbrev Buf := ℕ → ℕ → ℕ → ℕ → ℚ

/-- A single store `invJ(c, q, r, e) = v`. -/
def bufSet (b : Buf) (c q r e : ℕ) (v : ℚ) : Buf :=
  fun c' q' r' e' => if c' = c ∧ q' = q ∧ r' = r ∧ e' = e then v else b c' q' r' e'

/-! ## 2D geometric factor cache (lines 51–93) -/

/-- The value stored by the 2D quadrature loop for lor element `l`,
quadrature point `iq`, symmetric component `c` (0 = xx, 1 = xy, 2 = yy).
`J` is the precomputed Jacobian array `geom->J`, indexed
`(iq, row, col, iel_lor)`; `w` gives `ir[iq].weight`. -/
def metric2D (J : ℕ → ℕ → ℕ → ℕ → ℚ) (w : ℕ → ℚ) (l iq c : ℕ) : ℚ :=
  let J11 := J iq 0 0 l
  let J21 := J iq 1 0 l
  let J12 := J iq 0 1 l
  let J22 := J iq 1 1 l
  let w_detJ := w iq / ((J11 * J22) - (J21 * J12))
  if c = 0 then w_detJ * (J12 * J12 + J22 * J22)
  else if c = 1 then -w_detJ * (J12 * J11 + J22 * J21)
  else w_detJ * (J11 * J11 + J21 * J21)

/-- The three stores performed at one quadrature point of one lor element
(lines 89–91), at slots `(0..2, iq, mt l, parent l)`. -/
def write2D (J : ℕ → ℕ → ℕ → ℕ → ℚ) (w : ℕ → ℚ) (parent mt : ℕ → ℕ)
    (l : ℕ) (b : Buf) (iq : ℕ) : Buf :=
  bufSet (bufSet (bufSet b 0 iq (mt l) (parent l) (metric2D J w l iq 0))
      1 iq (mt l) (parent l) (metric2D J w l iq 1))
    2 iq (mt l) (parent l) (metric2D J w l iq 2)

/-- Body of the loop over lor elements: the inner loop over the 4
quadrature points (`nq = 4` in 2D). -/
def geomStep2D (J : ℕ → ℕ → ℕ → ℕ → ℚ) (w : ℕ → ℚ) (parent mt : ℕ → ℕ)
    (b : Buf) (l : ℕ) : Buf :=
  (List.range 4).foldl (write2D J w parent mt l) b

/-- The full 2D geometric factor cache (lines 51–93): loop over all lor
elements, writing each element's metric tensors at the slot given by its
refinement embedding `(parent l, mt l)`.  The buffer starts unspecified
(uninitialized array); `0` stands for the arbitrary initial contents. -/
def geom2D (J : ℕ → ℕ → ℕ → ℕ → ℚ) (w : ℕ → ℚ) (parent mt : ℕ → ℕ)
    (nel_lor : ℕ) : Buf :=
  (List.range nel_lor).foldl (geomStep2D J w parent mt) (fun _ _ _ _ => 0)

/-! ## 2D local assembler (lines 137–201) -/

/-- `constexpr double btab[4] = {0.0, 1.0, 1.0, 0.0}` (line 49), totalized
on `ℤ` (in-range accesses only occur for indices 0..3). -/
def btab (o : ℤ) : ℚ := if o = 1 ∨ o = 2 then 1 else 0

/-- The sign factor `(offset < 2 ? 1.0 : -1.0)`. -/
def sgn (o : ℤ) : ℚ := if o < 2 then 1 else -1

/-- `kx_begin = std::max(std::max(ix-1,0), jx-1)` (lines 154, 160). -/
def kBegin (i j : ℤ) : ℤ := max (max (i - 1) 0) (j - 1)

/-- `kx_end = std::min(std::min(ix,order-1), jx) + 1` (lines 155, 161). -/
def kEnd (p : ℕ) (i j : ℤ) : ℤ := min (min i ((p : ℤ) - 1)) j + 1

/-- The value `val` accumulated for node pair `(ix,iy)`–`(jx,jy)` of
high-order element `iel` (lines 165–195): sum over the overlapping
sub-cells `(kx, ky)` and the 4 quadrature points of the metric-contracted
products of bilinear hat-function gradients. -/
def contrib2D (buf : Buf) (p : ℕ) (iel : ℕ) (ix iy jx jy : ℤ) : ℚ :=
  ∑ ky in Finset.Ico (kBegin iy jy) (kEnd p iy jy),
    ∑ kx in Finset.Ico (kBegin ix jx) (kEnd p ix jx),
      ∑ iqy in Finset.range 2, ∑ iqx in Finset.range 2,
        let k : ℕ := (kx + ky * (p : ℤ)).toNat
        let iq : ℕ := iqx + iqy * 2
        let oxi : ℤ := (kx - ix + 1) * 2 + (iqx : ℤ)
        let oyi : ℤ := (ky - iy + 1) * 2 + (iqy : ℤ)
        let oxj : ℤ := (kx - jx + 1) * 2 + (iqx : ℤ)
        let oyj : ℤ := (ky - jy + 1) * 2 + (iqy : ℤ)
        let a := btab oyi * sgn oxi
        let b := btab oxi * sgn oyi
        let c := btab oyj * sgn oxj
        let d := btab oxj * sgn oyj
        a * c * buf 0 iq k iel + (b * c + a * d) * buf 1 iq k iel
          + b * d * buf 2 iq k iel

/-- The 2D element/node/stencil loops (lines 141–201): for each high-order
element, each tensor node `(ix, iy)` and each in-range neighbor
`(jx, jy) = (ix + xshift, iy + yshift)`, add `contrib2D` into the global
matrix at `(dofs[lex[i]], dofs[lex[j]])`. -/
def assemble2D (p nel_ho : ℕ) (dofs : ℕ → ℕ → ℕ) (lex : ℕ → ℕ)
    (buf : Buf) (A0 : Mat) : Mat :=
  (List.range nel_ho).foldl (fun A iel =>
    (List.range (p + 1)).foldl (fun A iy =>
      (List.range (p + 1)).foldl (fun A ix =>
        let ii := dofs iel (lex (ix + iy * (p + 1)))
        ([-1, 0, 1] : List ℤ).foldl (fun A xshift =>
          let jx : ℤ := (ix : ℤ) + xshift
          if jx < 0 ∨ (p : ℤ) + 1 ≤ jx then A else
          ([-1, 0, 1] : List ℤ).foldl (fun A yshift =>
            let jy : ℤ := (iy : ℤ) + yshift
            if jy < 0 ∨ (p : ℤ) + 1 ≤ jy then A else
            let jj := dofs iel (lex (jx.toNat + jy.toNat * (p + 1)))
            matAdd A ii jj (contrib2D buf p iel (ix : ℤ) (iy : ℤ) jx jy)) A) A) A) A) A0

/-- `Assemble2DBatchedLOR<order>` (lines 18–202): build the metric-tensor
cache, then run the local assembler, accumulating into `A`. -/
def Assemble2DBatchedLOR (p nel_ho nel_lor : ℕ) (parent mt : ℕ → ℕ)
    (J : ℕ → ℕ → ℕ → ℕ → ℚ) (w : ℕ → ℚ)
    (dofs : ℕ → ℕ → ℕ) (lex : ℕ → ℕ) (A : Mat) : Mat :=
  assemble2D p nel_ho dofs lex (geom2D J w parent mt nel_lor) A

/-! ## 3D geometric factor cache (lines 227–315) -/

/-- The value stored by the 3D quadrature loop for lor element `l`,
quadrature point `iq`, symmetric component `c` (0 = xx, 1 = xy, 2 = xz,
3 = yy, 4 = yz, 5 = zz).  `vert l v k` is coordinate `k` of the `v`-th
vertex of lor element `l`; `qx`, `qy`, `qz`, `w` give the quadrature point
coordinates and weights `ir[iq]`. -/
def metric3D (vert : ℕ → ℕ → ℕ → ℚ) (w qx qy qz : ℕ → ℚ) (l iq c : ℕ) : ℚ :=
  let x := qx iq
  let y := qy iq
  let z := qz iq
  let J11 := -(1-y)*(1-z)*vert l 0 0 + (1-y)*(1-z)*vert l 1 0 + y*(1-z)*vert l 2 0
      - y*(1-z)*vert l 3 0 - (1-y)*z*vert l 4 0 + (1-y)*z*vert l 5 0
      + y*z*vert l 6 0 - y*z*vert l 7 0
  let J12 := -(1-x)*(1-z)*vert l 0 0 - x*(1-z)*vert l 1 0 + x*(1-z)*vert l 2 0
      + (1-x)*(1-z)*vert l 3 0 - (1-x)*z*vert l 4 0 - x*z*vert l 5 0
      + x*z*vert l 6 0 + (1-x)*z*vert l 7 0
  let J13 := -(1-x)*(1-y)*vert l 0 0 - x*(1-y)*vert l 1 0 - x*y*vert l 2 0
      - (1-x)*y*vert l 3 0 + (1-x)*(1-y)*vert l 4 0 + x*(1-y)*vert l 5 0
      + x*y*vert l 6 0 + (1-x)*y*vert l 7 0
  let J21 := -(1-y)*(1-z)*vert l 0 1 + (1-y)*(1-z)*vert l 1 1 + y*(1-z)*vert l 2 1
      - y*(1-z)*vert l 3 1 - (1-y)*z*vert l 4 1 + (1-y)*z*vert l 5 1
      + y*z*vert l 6 1 - y*z*vert l 7 1
  let J22 := -(1-x)*(1-z)*vert l 0 1 - x*(1-z)*vert l 1 1 + x*(1-z)*vert l 2 1
      + (1-x)*(1-z)*vert l 3 1 - (1-x)*z*vert l 4 1 - x*z*vert l 5 1
      + x*z*vert l 6 1 + (1-x)*z*vert l 7 1
  let J23 := -(1-x)*(1-y)*vert l 0 1 - x*(1-y)*vert l 1 1 - x*y*vert l 2 1
      - (1-x)*y*vert l 3 1 + (1-x)*(1-y)*vert l 4 1 + x*(1-y)*vert l 5 1
      + x*y*vert l 6 1 + (1-x)*y*vert l 7 1
  let J31 := -(1-y)*(1-z)*vert l 0 2 + (1-y)*(1-z)*vert l 1 2 + y*(1-z)*vert l 2 2
      - y*(1-z)*vert l 3 2 - (1-y)*z*vert l 4 2 + (1-y)*z*vert l 5 2
      + y*z*vert l 6 2 - y*z*vert l 7 2
  let J32 := -(1-x)*(1-z)*vert l 0 2 - x*(1-z)*vert l 1 2 + x*(1-z)*vert l 2 2
      + (1-x)*(1-z)*vert l 3 2 - (1-x)*z*vert l 4 2 - x*z*vert l 5 2
      + x*z*vert l 6 2 + (1-x)*z*vert l 7 2
  let J33 := -(1-x)*(1-y)*vert l 0 2 - x*(1-y)*vert l 1 2 - x*y*vert l 2 2
      - (1-x)*y*vert l 3 2 + (1-x)*(1-y)*vert l 4 2 + x*(1-y)*vert l 5 2
      + x*y*vert l 6 2 + (1-x)*y*vert l 7 2
  let detJ := J11 * (J22 * J33 - J32 * J23) -
              J21 * (J12 * J33 - J32 * J13) +
              J31 * (J12 * J23 - J22 * J13)
  let w_detJ := w iq / detJ
  let A11 := (J22 * J33) - (J23 * J32)
  let A12 := (J32 * J13) - (J12 * J33)
  let A13 := (J12 * J23) - (J22 * J13)
  let A21 := (J31 * J23) - (J21 * J33)
  let A22 := (J11 * J33) - (J13 * J31)
  let A23 := (J21 * J13) - (J11 * J23)
  let A31 := (J21 * J32) - (J31 * J22)
  let A32 := (J31 * J12) - (J11 * J32)
  let A33 := (J11 * J22) - (J12 * J21)
  if c = 0 then w_detJ * (A11*A11 + A12*A12 + A13*A13)
  else if c = 1 then w_detJ * (A11*A21 + A12*A22 + A13*A23)
  else if c = 2 then w_detJ * (A11*A31 + A12*A32 + A13*A33)
  else if c = 3 then w_detJ * (A21*A21 + A22*A22 + A23*A23)
  else if c = 4 then w_detJ * (A21*A31 + A22*A32 + A23*A33)
  else w_detJ * (A31*A31 + A32*A32 + A33*A33)

/-- The six stores performed at one quadrature point of one lor element
(lines 308–313), at slots `(0..5, iq, mt l, parent l)`. -/
def write3D (vert : ℕ → ℕ → ℕ → ℚ) (w qx qy qz : ℕ → ℚ) (parent mt : ℕ → ℕ)
    (l : ℕ) (b : Buf) (iq : ℕ) : Buf :=
  bufSet (bufSet (bufSet (bufSet (bufSet (bufSet b
      0 iq (mt l) (parent l) (metric3D vert w qx qy qz l iq 0))
      1 iq (mt l) (parent l) (metric3D vert w qx qy qz l iq 1))
      2 iq (mt l) (parent l) (metric3D vert w qx qy qz l iq 2))
      3 iq (mt l) (parent l) (metric3D vert w qx qy qz l iq 3))
      4 iq (mt l) (parent l) (metric3D vert w qx qy qz l iq 4))
      5 iq (mt l) (parent l) (metric3D vert w qx qy qz l iq 5)

/-- Body of the 3D loop over lor elements: the inner loop over the 8
quadrature points (`nq = 8` in 3D). -/
def geomStep3D (vert : ℕ → ℕ → ℕ → ℚ) (w qx qy qz : ℕ → ℚ)
    (parent mt : ℕ → ℕ) (b : Buf) (l : ℕ) : Buf :=
  (List.range 8).foldl (write3D vert w qx qy qz parent mt l) b

/-- The full 3D geometric factor cache (lines 227–315). -/
def geom3D (vert : ℕ → ℕ → ℕ → ℚ) (w qx qy qz : ℕ → ℚ)
    (parent mt : ℕ → ℕ) (nel_lor : ℕ) : Buf :=
  (List.range nel_lor).foldl (geomStep3D vert w qx qy qz parent mt)
    (fun _ _ _ _ => 0)

/-! ## 3D local assembler (lines 317–461) -/

/-- The value `val` (lines 439–444) for sub-cell slot `k` of element `iel`:
quadrature point `(iqx,iqy,iqz)`, trial corner `(jx,jy,jz)`, test corner
`(ix,iy,iz)`, contracting the trilinear corner gradients with the 6-entry
metric tensor. -/
def localVal3D (buf : Buf) (iel k iqx iqy iqz jx jy jz ix iy iz : ℕ) : ℚ :=
  let gzj : ℚ := if jz = 0 then -1 else 1
  let bzj : ℚ := if jz = iqz then 1 else 0
  let gyj : ℚ := if jy = 0 then -1 else 1
  let byj : ℚ := if jy = iqy then 1 else 0
  let gxj : ℚ := if jx = 0 then -1 else 1
  let bxj : ℚ := if jx = iqx then 1 else 0
  let gj_x := gxj * byj * bzj
  let gj_y := bxj * gyj * bzj
  let gj_z := bxj * byj * gzj
  let gzi : ℚ := if iz = 0 then -1 else 1
  let bzi : ℚ := if iz = iqz then 1 else 0
  let gyi : ℚ := if iy = 0 then -1 else 1
  let byi : ℚ := if iy = iqy then 1 else 0
  let gxi : ℚ := if ix = 0 then -1 else 1
  let bxi : ℚ := if ix = iqx then 1 else 0
  let gi_x := gxi * byi * bzi
  let gi_y := bxi * gyi * bzi
  let gi_z := bxi * byi * gzi
  let iq := iqx + 2 * iqy + 4 * iqz
  (gi_x * gj_x) * buf 0 iq k iel
    + (gi_y * gj_x + gi_x * gj_y) * buf 1 iq k iel
    + (gi_z * gj_x + gi_x * gj_z) * buf 2 iq k iel
    + (gi_y * gj_y) * buf 3 iq k iel
    + (gi_z * gj_y + gi_y * gj_z) * buf 4 iq k iel
    + (gi_z * gj_z) * buf 5 iq k iel

/-- `local_mat_ptr[n] += v` on the flat 8×8 local matrix (line 446). -/
def addAt (m : ℕ → ℚ) (n : ℕ) (v : ℚ) : ℕ → ℚ :=
  fun n' => if n' = n then m n' + v else m n'

/-- One sub-cell iteration of the 3D assembler (lines 373–456): the local
matrix is reset to zero (`local_mat = 0.0`, line 375), then, over the
sub-cell's 8 quadrature points and all test/trial corner pairs, `val` is
accumulated into flat slot `ii_loc + 8*jj_loc`.  `prev` is the local
matrix state left by the previous iteration. -/
def subcellStep (p : ℕ) (buf : Buf) (iel kx ky kz : ℕ)
    (_prev : ℕ → ℚ) : ℕ → ℚ :=
  let k := kx + ky * p + kz * p * p
  let reset : ℕ → ℚ := fun _ => 0
  (List.range 2).foldl (fun m iqz =>
    (List.range 2).foldl (fun m iqy =>
      (List.range 2).foldl (fun m iqx =>
        (List.range 2).foldl (fun m jz =>
          (List.range 2).foldl (fun m jy =>
            (List.range 2).foldl (fun m jx =>
              (List.range 2).foldl (fun m iz =>
                (List.range 2).foldl (fun m iy =>
                  (List.range 2).foldl (fun m ix =>
                    let ii_loc := ix + 2 * iy + 4 * iz
                    let jj_loc := jx + 2 * jy + 4 * jz
                    addAt m (ii_loc + 8 * jj_loc)
                      (localVal3D buf iel k iqx iqy iqz jx jy jz ix iy iz))
                    m) m) m) m) m) m) m) m) reset

/-- `Assemble3DBatchedLOR<order>` (lines 204–461): build the 3D metric
cache, loop over elements and sub-cells accumulating each 8×8 local
matrix — and return the global matrix `A`, which the kernel never writes
(the scatter `A_mat.Add(ii, jj, val)` exists only in commented-out form,
line 447).  The first component is the final local-matrix state. -/
def Assemble3DBatchedLOR (p nel_ho nel_lor : ℕ) (parent mt : ℕ → ℕ)
    (vert : ℕ → ℕ → ℕ → ℚ) (w qx qy qz : ℕ → ℚ)
    (_dofs : ℕ → ℕ → ℕ) (_lex : ℕ → ℕ) (A : Mat) : (ℕ → ℚ) × Mat :=
  let buf := geom3D vert w qx qy qz parent mt nel_lor
  let lm := (List.range nel_ho).foldl (fun lm iel =>
    (List.range p).foldl (fun lm kz =>
      (List.range p).foldl (fun lm ky =>
        (List.range p).foldl (fun lm kx =>
          subcellStep p buf iel kx ky kz lm) lm) lm) lm) (fun _ => 0)
  (lm, A)

/-! ## Driver: elimination, finalization, dispatch (lines 463–530) -/

/-- Modelled from the spec: `SparseMatrix::EliminateRowCol(i, DIAG_KEEP)`
(called at line 525; its body is not part of this repository's sources).
Per §4.5: zero every off-diagonal entry in row `i` and column `i`; the
diagonal entry at `(i,i)` is kept at its assembled value. -/
def eliminateRowColKeep (A : Mat) (i : ℕ) : Mat :=
  fun r c => if (r = i ∨ c = i) ∧ r ≠ c then 0 else A r c

/-- Modelled from the spec: `SparseMatrix::Finalize` (line 528; body not
part of this repository's sources).  Per §4.5 it compresses duplicate
entries into canonical sparse storage; entry values are unchanged, so on
the value model it is the identity. -/
def finalize (A : Mat) : Mat := A

/-- `AssembleBatchedLOR` (lines 463–530): verify the tensor-basis
precondition (fatal otherwise, line 466), allocate the empty matrix,
dispatch on `(dim, order)` — the switch has cases exactly for orders
1..16, so any other order selects no kernel and leaves the matrix
untouched — then eliminate the essential dofs and finalize.
`tensor` is the value of `UsesTensorBasis(fes_ho)` (external predicate). -/
def AssembleBatchedLOR (tensor : Bool) (dim p : ℕ) (nel_ho nel_lor : ℕ)
    (parent mt : ℕ → ℕ) (J2 : ℕ → ℕ → ℕ → ℕ → ℚ) (w2 : ℕ → ℚ)
    (vert : ℕ → ℕ → ℕ → ℚ) (w3 qx qy qz : ℕ → ℚ)
    (dofs : ℕ → ℕ → ℕ) (lex : ℕ → ℕ) (ess : List ℕ) : Except String Mat :=
  if tensor = false then
    Except.error "Batched LOR assembly requires tensor basis"
  else
    let A0 : Mat := fun _ _ => 0
    let A1 : Mat :=
      if dim = 2 then
        if 1 ≤ p ∧ p ≤ 16 then
          Assemble2DBatchedLOR p nel_ho nel_lor parent mt J2 w2 dofs lex A0
        else A0
      else if dim = 3 then
        if 1 ≤ p ∧ p ≤ 16 then
          (Assemble3DBatchedLOR p nel_ho nel_lor parent mt vert w3 qx qy qz
            dofs lex A0).2
        else A0
      else A0
    let A2 := ess.foldl eliminateRowColKeep A1
    Except.ok (finalize A2)

/-! ## Helper lemmas -/

/-- If no element of `L` touches the observed slot, a left fold leaves the
observation unchanged. -/
theorem foldl_keep {β : Type} (f : β → ℕ → β) (g : β → ℚ) (touch : ℕ → Prop)
    (L : List ℕ) (hkeep : ∀ b l, l ∈ L → ¬ touch l → g (f b l) = g b)
    (hnone : ∀ l ∈ L, ¬ touch l) (b : β) : g (L.foldl f b) = g b := by
  induction L generalizing b with
  | nil => rfl
  | cons a T ih =>
    rw [List.foldl_cons,
      ih (fun b l hl => hkeep b l (List.mem_cons_of_mem a hl))
        (fun l hl => hnone l (List.mem_cons_of_mem a hl))]
    exact hkeep b a (List.mem_cons_self a T) (hnone a (List.mem_cons_self a T))

/-- If every touching element of `L` writes the value `v` at the observed
slot, non-touching elements leave it alone, and some element of `L`
touches it, then after the fold the slot holds `v`. -/
theorem foldl_observe {β : Type} (f : β → ℕ → β) (g : β → ℚ) (touch : ℕ → Prop)
    (v : ℚ) (L : List ℕ)
    (hset : ∀ b l, l ∈ L → touch l → g (f b l) = v)
    (hkeep : ∀ b l, l ∈ L → ¬ touch l → g (f b l) = g b)
    (b : β) (hex : ∃ l, l ∈ L ∧ touch l) : g (L.foldl f b) = v := by
  induction L generalizing b with
  | nil => obtain ⟨l, hl, _⟩ := hex; exact absurd hl (List.not_mem_nil l)
  | cons a T ih =>
    rw [List.foldl_cons]
    by_cases hT : ∃ l, l ∈ T ∧ touch l
    · exact ih (fun b l hl => hset b l (List.mem_cons_of_mem a hl))
        (fun b l hl => hkeep b l (List.mem_cons_of_mem a hl)) _ hT
    · have ha : touch a := by
        obtain ⟨l, hl, htl⟩ := hex
        rcases List.mem_cons.mp hl with h | h
        · exact h ▸ htl
        · exact absurd ⟨l, h, htl⟩ hT
      have hpres : g (T.foldl f (f b a)) = g (f b a) :=
        foldl_keep f g touch T
          (fun b l hl => hkeep b l (List.mem_cons_of_mem a hl))
          (fun l hl htl => hT ⟨l, hl, htl⟩) _
      rw [hpres]
      exact hset b a (List.mem_cons_self a T) ha

/-- Pointwise effect of the three stores at one 2D quadrature point. -/
theorem write2D_eval (J : ℕ → ℕ → ℕ → ℕ → ℚ) (w : ℕ → ℚ) (parent mt : ℕ → ℕ)
    (l : ℕ) (b : Buf) (iq c q r e : ℕ) :
    write2D J w parent mt l b iq c q r e =
      if c < 3 ∧ q = iq ∧ r = mt l ∧ e = parent l
      then metric2D J w l iq c else b c q r e := by
  simp only [write2D, bufSet]
  split_ifs <;> first | rfl | omega | simp_all

/-- Pointwise effect of one 2D lor element's quadrature loop. -/
theorem geomStep2D_eval (J : ℕ → ℕ → ℕ → ℕ → ℚ) (w : ℕ → ℚ)
    (parent mt : ℕ → ℕ) (b : Buf) (l c q r e : ℕ) :
    geomStep2D J w parent mt b l c q r e =
      if c < 3 ∧ q < 4 ∧ r = mt l ∧ e = parent l
      then metric2D J w l q c else b c q r e := by
  have h4 : List.range 4 = [0, 1, 2, 3] := rfl
  simp only [geomStep2D, h4, List.foldl_cons, List.foldl_nil]
  rw [write2D_eval, write2D_eval, write2D_eval, write2D_eval]
  split_ifs <;> first | rfl | omega | simp_all

/-- C3: In the 2D geometric factor cache, for every fine cell and each of
its 4 quadrature points, the stored metric-tensor triple equals exactly
`[w_detJ*(J12²+J22²), -w_detJ*(J12*J11+J22*J21), w_detJ*(J11²+J21²)]` with
`w_detJ = weight/(J11*J22 - J21*J12)`, written at the slot indexed by
(parent high-order element, sub-cell index from the embedding, quadrature
point, component).  The hypothesis `hinj` is the data-model invariant that
embeddings identify fine cells uniquely. -/
theorem geom2D_metric_stored (J : ℕ → ℕ → ℕ → ℕ → ℚ) (w : ℕ → ℚ)
    (parent mt : ℕ → ℕ) (nel_lor l q c : ℕ)
    (hl : l < nel_lor) (hq : q < 4) (hc : c < 3)
    (hinj : ∀ l₁ l₂, l₁ < nel_lor → l₂ < nel_lor →
      parent l₁ = parent l₂ → mt l₁ = mt l₂ → l₁ = l₂) :
    geom2D J w parent mt nel_lor c q (mt l) (parent l) =
      (w q / (J q 0 0 l * J q 1 1 l - J q 1 0 l * J q 0 1 l)) *
        (if c = 0 then J q 0 1 l * J q 0 1 l + J q 1 1 l * J q 1 1 l
         else if c = 1 then -(J q 0 1 l * J q 0 0 l + J q 1 1 l * J q 1 0 l)
         else J q 0 0 l * J q 0 0 l + J q 1 0 l * J q 1 0 l) := by
  have key : geom2D J w parent mt nel_lor c q (mt l) (parent l)
      = metric2D J w l q c := by
    unfold geom2D
    refine foldl_observe (geomStep2D J w parent mt)
      (fun b => b c q (mt l) (parent l))
      (fun l' => mt l' = mt l ∧ parent l' = parent l)
      (metric2D J w l q c) (List.range nel_lor) ?_ ?_ _ ?_
    · rintro b l' hl' ⟨hm, hp⟩
      have he : l' = l := hinj l' l (List.mem_range.mp hl') hl hp hm
      subst he
      simp only [geomStep2D_eval]
      simp [hc, hq]
    · intro b l' hl' hn
      simp only [geomStep2D_eval]
      rw [if_neg]
      rintro ⟨_, _, hm, hp⟩
      exact hn ⟨hm.symm, hp.symm⟩
    · exact ⟨l, List.mem_range.mpr hl, rfl, rfl⟩
  rw [key]
  simp only [metric2D]
  split_ifs <;> ring

/-- Witness for C3 at a concrete input: one fine cell with identity
Jacobian, weight 1/4, component 0 at quadrature point 0. -/
theorem geom2D_metric_stored_witness :
    geom2D (fun _ a b _ => if a = b then 1 else 0) (fun _ => 1/4)
        (fun _ => 0) (fun _ => 0) 1 0 0 0 0 =
      ((1/4 : ℚ) / ((if (0:ℕ) = 0 then (1:ℚ) else 0) * (if (1:ℕ) = 1 then (1:ℚ) else 0)
          - (if (1:ℕ) = 0 then (1:ℚ) else 0) * (if (0:ℕ) = 1 then (1:ℚ) else 0))) *
        (if (0:ℕ) = 0 then
            (if (0:ℕ) = 1 then (1:ℚ) else 0) * (if (0:ℕ) = 1 then (1:ℚ) else 0)
              + (if (1:ℕ) = 1 then (1:ℚ) else 0) * (if (1:ℕ) = 1 then (1:ℚ) else 0)
         else if (0:ℕ) = 1 then
            -((if (0:ℕ) = 1 then (1:ℚ) else 0) * (if (0:ℕ) = 0 then (1:ℚ) else 0)
              + (if (1:ℕ) = 1 then (1:ℚ) else 0) * (if (1:ℕ) = 0 then (1:ℚ) else 0))
         else (if (0:ℕ) = 0 then (1:ℚ) else 0) * (if (0:ℕ) = 0 then (1:ℚ) else 0)
              + (if (1:ℕ) = 0 then (1:ℚ) else 0) * (if (1:ℕ) = 0 then (1:ℚ) else 0)) :=
  geom2D_metric_stored (fun _ a b _ => if a = b then 1 else 0) (fun _ => 1/4)
    (fun _ => 0) (fun _ => 0) 1 0 0 0 (by omega) (by omega) (by omega)
    (fun l₁ l₂ h₁ h₂ _ _ => by omega)

/-- C4: in the 2D local assembler, for every tensor-node pair within the
element with `|jx-ix| ≤ 1`, `|jy-iy| ≤ 1`, the sub-cell indices iterated
by the `kx`/`ky` loops (the half-open ranges `[kBegin, kEnd)` of lines
154–161) are exactly `kx ∈ [max(ix-1,0,jx-1), min(ix,jx,p-1)]` and
`ky ∈ [max(iy-1,0,jy-1), min(iy,jy,p-1)]` (inclusive) — equivalently, the
sub-cells whose support contains both nodes. -/
theorem overlap_range_exact (p : ℕ) (ix iy jx jy kx ky : ℤ)
    (hp : 1 ≤ p) (hix : 0 ≤ ix ∧ ix ≤ p) (hjx : 0 ≤ jx ∧ jx ≤ p)
    (hiy : 0 ≤ iy ∧ iy ≤ p) (hjy : 0 ≤ jy ∧ jy ≤ p)
    (hax : |jx - ix| ≤ 1) (hay : |jy - iy| ≤ 1) :
    (kx ∈ Finset.Ico (kBegin ix jx) (kEnd p ix jx) ↔
      max (max (ix - 1) 0) (jx - 1) ≤ kx ∧ kx ≤ min (min ix jx) ((p : ℤ) - 1)) ∧
    (ky ∈ Finset.Ico (kBegin iy jy) (kEnd p iy jy) ↔
      max (max (iy - 1) 0) (jy - 1) ≤ ky ∧ ky ≤ min (min iy jy) ((p : ℤ) - 1)) ∧
    (kx ∈ Finset.Ico (kBegin ix jx) (kEnd p ix jx) ↔
      kx ≤ ix ∧ ix ≤ kx + 1 ∧ kx ≤ jx ∧ jx ≤ kx + 1 ∧ 0 ≤ kx ∧ kx ≤ (p : ℤ) - 1) ∧
    (ky ∈ Finset.Ico (kBegin iy jy) (kEnd p iy jy) ↔
      ky ≤ iy ∧ iy ≤ ky + 1 ∧ ky ≤ jy ∧ jy ≤ ky + 1 ∧ 0 ≤ ky ∧ ky ≤ (p : ℤ) - 1) := by
  rw [abs_le] at hax hay
  simp only [Finset.mem_Ico, kBegin, kEnd]
  omega

/-- Witness for C4 at a concrete input: `p = 2`, `ix = 1`, `jx = 2`,
`kx = 1`, `iy = jy = 0`, `ky = 0`. -/
theorem overlap_range_exact_witness :
    ((1 : ℤ) ∈ Finset.Ico (kBegin 1 2) (kEnd 2 1 2) ↔
      max (max ((1:ℤ) - 1) 0) (2 - 1) ≤ 1 ∧ (1:ℤ) ≤ min (min 1 2) ((2 : ℤ) - 1)) ∧
    ((0 : ℤ) ∈ Finset.Ico (kBegin 0 0) (kEnd 2 0 0) ↔
      max (max ((0:ℤ) - 1) 0) (0 - 1) ≤ 0 ∧ (0:ℤ) ≤ min (min 0 0) ((2 : ℤ) - 1)) ∧
    ((1 : ℤ) ∈ Finset.Ico (kBegin 1 2) (kEnd 2 1 2) ↔
      (1:ℤ) ≤ 1 ∧ (1:ℤ) ≤ 1 + 1 ∧ (1:ℤ) ≤ 2 ∧ (2:ℤ) ≤ 1 + 1 ∧ (0:ℤ) ≤ 1 ∧ (1:ℤ) ≤ (2 : ℤ) - 1) ∧
    ((0 : ℤ) ∈ Finset.Ico (kBegin 0 0) (kEnd 2 0 0) ↔
      (0:ℤ) ≤ 0 ∧ (0:ℤ) ≤ 0 + 1 ∧ (0:ℤ) ≤ 0 ∧ (0:ℤ) ≤ 0 + 1 ∧ (0:ℤ) ≤ 0 ∧ (0:ℤ) ≤ (2 : ℤ) - 1) :=
  overlap_range_exact 2 1 0 2 0 1 0 (by omega) (by omega) (by omega)
    (by omega) (by omega) (by decide) (by decide)

/-- C5: for every high-order element and every pair of tensor nodes, the
locally computed 2D contribution is symmetric: swapping `(ix,iy)` with
`(jx,jy)` swaps the gradient pairs `(a,b) ↔ (c,d)` and leaves
`a*c*M_xx + (b*c+a*d)*M_xy + b*d*M_yy` unchanged. -/
theorem contrib2D_symmetric (buf : Buf) (p iel : ℕ) (ix iy jx jy : ℤ) :
    contrib2D buf p iel ix iy jx jy = contrib2D buf p iel jx jy ix iy := by
  unfold contrib2D
  have hby : kBegin iy jy = kBegin jy iy := by unfold kBegin; omega
  have hbx : kBegin ix jx = kBegin jx ix := by unfold kBegin; omega
  have hey : kEnd p iy jy = kEnd p jy iy := by unfold kEnd; omega
  have hex : kEnd p ix jx = kEnd p jx ix := by unfold kEnd; omega
  rw [hby, hbx, hey, hex]
  refine Finset.sum_congr rfl fun ky _ => ?_
  refine Finset.sum_congr rfl fun kx _ => ?_
  refine Finset.sum_congr rfl fun iqy _ => ?_
  refine Finset.sum_congr rfl fun iqx _ => ?_
  ring

/-- Pointwise effect of the six stores at one 3D quadrature point. -/
theorem write3D_eval (vert : ℕ → ℕ → ℕ → ℚ) (w qx qy qz : ℕ → ℚ)
    (parent mt : ℕ → ℕ) (l : ℕ) (b : Buf) (iq c q r e : ℕ) :
    write3D vert w qx qy qz parent mt l b iq c q r e =
      if c < 6 ∧ q = iq ∧ r = mt l ∧ e = parent l
      then metric3D vert w qx qy qz l iq c else b c q r e := by
  simp only [write3D, bufSet]
  split_ifs <;> first | rfl | omega | simp_all

/-- Pointwise effect of one 3D lor element's quadrature loop. -/
theorem geomStep3D_eval (vert : ℕ → ℕ → ℕ → ℚ) (w qx qy qz : ℕ → ℚ)
    (parent mt : ℕ → ℕ) (b : Buf) (l c q r e : ℕ) :
    geomStep3D vert w qx qy qz parent mt b l c q r e =
      if c < 6 ∧ q < 8 ∧ r = mt l ∧ e = parent l
      then metric3D vert w qx qy qz l q c else b c q r e := by
  have h8 : List.range 8 = [0, 1, 2, 3, 4, 5, 6, 7] := rfl
  simp only [geomStep3D, h8, List.foldl_cons, List.foldl_nil]
  rw [write3D_eval, write3D_eval, write3D_eval, write3D_eval,
    write3D_eval, write3D_eval, write3D_eval, write3D_eval]
  split_ifs <;> first | rfl | omega | simp_all

/-! ## Elimination lemmas -/

/-- Diagonal entries are never changed by the elimination loop. -/
theorem elimFold_diag (L : List ℕ) (B : Mat) (r : ℕ) :
    L.foldl eliminateRowColKeep B r r = B r r := by
  induction L generalizing B with
  | nil => rfl
  | cons a T ih =>
    rw [List.foldl_cons, ih]
    simp [eliminateRowColKeep]

/-- Entries that are already zero stay zero through the elimination loop. -/
theorem elimFold_zero (L : List ℕ) (B : Mat) (r c : ℕ) (h : B r c = 0) :
    L.foldl eliminateRowColKeep B r c = 0 := by
  induction L generalizing B with
  | nil => exact h
  | cons a T ih =>
    rw [List.foldl_cons]
    refine ih _ ?_
    simp only [eliminateRowColKeep]
    split_ifs <;> simp [h]

/-- Off-diagonal entries in an eliminated row are zero after the loop. -/
theorem elimFold_row (L : List ℕ) (B : Mat) (i j : ℕ) (hi : i ∈ L)
    (hij : j ≠ i) : L.foldl eliminateRowColKeep B i j = 0 := by
  induction L generalizing B with
  | nil => exact absurd hi (List.not_mem_nil i)
  | cons a T ih =>
    rw [List.foldl_cons]
    rcases List.mem_cons.mp hi with h | h
    · subst h
      refine elimFold_zero T _ i j ?_
      simp [eliminateRowColKeep, Ne.symm hij]
    · exact ih _ h

/-- Off-diagonal entries in an eliminated column are zero after the loop. -/
theorem elimFold_col (L : List ℕ) (B : Mat) (i j : ℕ) (hi : i ∈ L)
    (hij : j ≠ i) : L.foldl eliminateRowColKeep B j i = 0 := by
  induction L generalizing B with
  | nil => exact absurd hi (List.not_mem_nil i)
  | cons a T ih =>
    rw [List.foldl_cons]
    rcases List.mem_cons.mp hi with h | h
    · subst h
      refine elimFold_zero T _ j i ?_
      simp [eliminateRowColKeep, hij]
    · exact ih _ h

/-- C2: for every dof `i` in the essential dof set, after the elimination
loop (lines 523–526, `EliminateRowCol(i, DIAG_KEEP)` over `ess_dofs`),
every off-diagonal entry in row `i` and in column `i` is exactly zero,
and the diagonal entry `(i,i)` equals its pre-elimination assembled
value. -/
theorem elimination_keeps_diag_zeroes_offdiag (A : Mat) (ess : List ℕ)
    (i : ℕ) (hi : i ∈ ess) :
    (∀ j, j ≠ i → ess.foldl eliminateRowColKeep A i j = 0
      ∧ ess.foldl eliminateRowColKeep A j i = 0)
    ∧ ess.foldl eliminateRowColKeep A i i = A i i :=
  ⟨fun j hj => ⟨elimFold_row ess A i j hi hj, elimFold_col ess A i j hi hj⟩,
    elimFold_diag ess A i⟩

/-- Witness for C2 at a concrete input: the all-ones 2×2 matrix with
essential dof 0. -/
theorem elimination_keeps_diag_zeroes_offdiag_witness :
    (∀ j, j ≠ 0 → [0].foldl eliminateRowColKeep (fun _ _ => (1:ℚ)) 0 j = 0
      ∧ [0].foldl eliminateRowColKeep (fun _ _ => (1:ℚ)) j 0 = 0)
    ∧ [0].foldl eliminateRowColKeep (fun _ _ => (1:ℚ)) 0 0 = (fun _ _ => (1:ℚ)) 0 0 :=
  elimination_keeps_diag_zeroes_offdiag (fun _ _ => (1:ℚ)) [0] 0 (by decide)

/-- C6: for any polynomial order outside 1..16 (in either dimension), the
driver selects no kernel and performs no assembly work, raising no error:
the result is `ok` of the eliminated, finalized, unpopulated matrix, all
of whose entries are zero. -/
theorem unsupported_order_silent_empty (dim p nel_ho nel_lor : ℕ)
    (parent mt : ℕ → ℕ) (J2 : ℕ → ℕ → ℕ → ℕ → ℚ) (w2 : ℕ → ℚ)
    (vert : ℕ → ℕ → ℕ → ℚ) (w3 qx qy qz : ℕ → ℚ)
    (dofs : ℕ → ℕ → ℕ) (lex : ℕ → ℕ) (ess : List ℕ)
    (h : ¬(1 ≤ p ∧ p ≤ 16)) :
    AssembleBatchedLOR true dim p nel_ho nel_lor parent mt J2 w2
        vert w3 qx qy qz dofs lex ess
      = Except.ok (finalize (ess.foldl eliminateRowColKeep (fun _ _ => 0)))
    ∧ ∀ i j, finalize (ess.foldl eliminateRowColKeep (fun _ _ => (0:ℚ))) i j = 0 := by
  constructor
  · unfold AssembleBatchedLOR
    split_ifs <;> first | rfl | simp_all
  · intro i j
    exact elimFold_zero ess _ i j rfl

/-- Witness for C6 at a concrete input: order 17 in 2D. -/
theorem unsupported_order_silent_empty_witness :
    AssembleBatchedLOR true 2 17 1 1 (fun _ => 0) (fun _ => 0)
        (fun _ _ _ _ => 0) (fun _ => 0) (fun _ _ _ => 0)
        (fun _ => 0) (fun _ => 0) (fun _ => 0) (fun _ => 0)
        (fun _ n => n) (fun n => n) []
      = Except.ok (finalize (([] : List ℕ).foldl eliminateRowColKeep (fun _ _ => 0)))
    ∧ ∀ i j, finalize (([] : List ℕ).foldl eliminateRowColKeep (fun _ _ => (0:ℚ))) i j = 0 :=
  unsupported_order_silent_empty 2 17 1 1 (fun _ => 0) (fun _ => 0)
    (fun _ _ _ _ => 0) (fun _ => 0) (fun _ _ _ => 0)
    (fun _ => 0) (fun _ => 0) (fun _ => 0) (fun _ => 0)
    (fun _ n => n) (fun n => n) [] (by omega)

/-- C8: if the high-order space does not use a tensor-product basis, the
driver fails before any assembly work (it returns the fatal error, no
matrix is produced); if it does, the check passes and assembly proceeds
to return a finalized matrix. -/
theorem tensor_basis_check (tensor : Bool) (dim p nel_ho nel_lor : ℕ)
    (parent mt : ℕ → ℕ) (J2 : ℕ → ℕ → ℕ → ℕ → ℚ) (w2 : ℕ → ℚ)
    (vert : ℕ → ℕ → ℕ → ℚ) (w3 qx qy qz : ℕ → ℚ)
    (dofs : ℕ → ℕ → ℕ) (lex : ℕ → ℕ) (ess : List ℕ) :
    (tensor = false →
      AssembleBatchedLOR tensor dim p nel_ho nel_lor parent mt J2 w2
          vert w3 qx qy qz dofs lex ess
        = Except.error "Batched LOR assembly requires tensor basis")
    ∧ (tensor = true →
      ∃ M, AssembleBatchedLOR tensor dim p nel_ho nel_lor parent mt J2 w2
          vert w3 qx qy qz dofs lex ess = Except.ok M) := by
  constructor
  · intro h
    subst h
    rfl
  · intro h
    subst h
    exact ⟨_, rfl⟩

/-- Witness for C8 at concrete inputs: both the failing and the passing
case. -/
theorem tensor_basis_check_witness :
    (AssembleBatchedLOR false 2 1 1 1 (fun _ => 0) (fun _ => 0)
        (fun _ _ _ _ => 0) (fun _ => 0) (fun _ _ _ => 0)
        (fun _ => 0) (fun _ => 0) (fun _ => 0) (fun _ => 0)
        (fun _ n => n) (fun n => n) []
      = Except.error "Batched LOR assembly requires tensor basis")
    ∧ ∃ M, AssembleBatchedLOR true 2 1 1 1 (fun _ => 0) (fun _ => 0)
        (fun _ _ _ _ => 0) (fun _ => 0) (fun _ _ _ => 0)
        (fun _ => 0) (fun _ => 0) (fun _ => 0) (fun _ => 0)
        (fun _ n => n) (fun n => n) [] = Except.ok M :=
  ⟨(tensor_basis_check false 2 1 1 1 (fun _ => 0) (fun _ => 0)
      (fun _ _ _ _ => 0) (fun _ => 0) (fun _ _ _ => 0)
      (fun _ => 0) (fun _ => 0) (fun _ => 0) (fun _ => 0)
      (fun _ n => n) (fun n => n) []).1 rfl,
   (tensor_basis_check true 2 1 1 1 (fun _ => 0) (fun _ => 0)
      (fun _ _ _ _ => 0) (fun _ => 0) (fun _ _ _ => 0)
      (fun _ => 0) (fun _ => 0) (fun _ => 0) (fun _ => 0)
      (fun _ n => n) (fun n => n) []).2 rfl⟩

/-! ## The order-1 unit-square reference case -/

/-- Modelled from the spec: for a single bilinear cell covering the unit
square, the external `GetGeometricFactors` Jacobian is the identity at
every quadrature point. -/
def unitSquareJ : ℕ → ℕ → ℕ → ℕ → ℚ := fun _ a b _ => if a = b then 1 else 0

/-- Modelled from the spec: the 2-point-per-axis Gauss–Lobatto corner rule
of `IntegrationRules(0, Quadrature1D::GaussLobatto)` at order 1 on the
unit square — 4 corner points, each of weight 1/4. -/
def glWeight2D : ℕ → ℚ := fun _ => 1/4

/-- The metric buffer of the unit-square instance. -/
def buf7 : Buf := geom2D unitSquareJ glWeight2D (fun _ => 0) (fun _ => 0) 1

/-- Pointwise value of the unit-square metric buffer. -/
theorem buf7_eval (c q r e : ℕ) :
    buf7 c q r e = if c < 3 ∧ q < 4 ∧ r = 0 ∧ e = 0
      then metric2D unitSquareJ glWeight2D 0 q c else 0 := by
  have h1 : List.range 1 = [0] := rfl
  simp only [buf7, geom2D, h1, List.foldl_cons, List.foldl_nil]
  rw [geomStep2D_eval]

/-- The unit-square metric tensor: identity Jacobian, weight 1/4. -/
theorem metric7_eval (q c : ℕ) :
    metric2D unitSquareJ glWeight2D 0 q c = if c = 1 then 0 else 1/4 := by
  simp only [metric2D, unitSquareJ, glWeight2D]
  split_ifs <;> simp_all

set_option maxHeartbeats 3200000 in
/-- The 2D contribution values for the order-1 unit-square element. -/
theorem contrib7_eval (ix iy jx jy : ℤ)
    (hix : ix = 0 ∨ ix = 1) (hiy : iy = 0 ∨ iy = 1)
    (hjx : jx = 0 ∨ jx = 1) (hjy : jy = 0 ∨ jy = 1) :
    contrib2D buf7 1 0 ix iy jx jy =
      (1/2) * ((if iy = jy then (if ix = jx then (1:ℚ) else -1) else 0)
        + (if ix = jx then (if iy = jy then (1:ℚ) else -1) else 0)) := by
  have hk00 : Finset.Ico (kBegin 0 0) (kEnd 1 0 0) = {0} := rfl
  have hk01 : Finset.Ico (kBegin 0 1) (kEnd 1 0 1) = {0} := rfl
  have hk10 : Finset.Ico (kBegin 1 0) (kEnd 1 1 0) = {0} := rfl
  have hk11 : Finset.Ico (kBegin 1 1) (kEnd 1 1 1) = {0} := rfl
  rcases hix with h | h <;> subst h <;>
    rcases hiy with h | h <;> subst h <;>
      rcases hjx with h | h <;> subst h <;>
        rcases hjy with h | h <;> subst h <;>
  norm_num [contrib2D, hk00, hk01, hk10, hk11, Finset.sum_singleton,
    Finset.sum_range_succ, Finset.sum_range_zero, btab, sgn,
    buf7_eval, metric7_eval]

/-- The local-assembly stage of the unit-square instance. -/
def usm : Mat := assemble2D 1 1 (fun _ n => n) (fun n => n) buf7 (fun _ _ => 0)

/-- The driver run on the unit-square instance succeeds, returning
exactly the local-assembly result (no essential dofs to eliminate). -/
theorem driver7_ok :
    AssembleBatchedLOR true 2 1 1 1 (fun _ => 0) (fun _ => 0)
      unitSquareJ glWeight2D (fun _ _ _ => 0)
      (fun _ => 0) (fun _ => 0) (fun _ => 0) (fun _ => 0)
      (fun _ n => n) (fun n => n) [] = Except.ok usm := rfl

set_option maxHeartbeats 3200000 in
/-- All 16 entries of the assembled unit-square matrix. -/
theorem usm_val (r c : ℕ) (hr : r < 4) (hc : c < 4) :
    usm r c = if r = c then 1 else (if r + c = 3 then 0 else -(1/2)) := by
  interval_cases r <;> interval_cases c <;>
  norm_num [usm, assemble2D, show List.range 1 = [0] from rfl,
    show List.range 2 = [0, 1] from rfl, List.foldl_cons, List.foldl_nil,
    matAdd, contrib7_eval]

/-- C7 counterexample: the single order-1 unit-square element does NOT
assemble to the canonical (exactly integrated) Q1 Laplacian — the driver
succeeds, but the first diagonal entry of the assembled matrix is 1, not
2/3, because the kernel integrates with the 2-point Gauss–Lobatto corner
rule. -/
theorem unit_square_not_exact_q1 :
    AssembleBatchedLOR true 2 1 1 1 (fun _ => 0) (fun _ => 0)
      unitSquareJ glWeight2D (fun _ _ _ => 0)
      (fun _ => 0) (fun _ => 0) (fun _ => 0) (fun _ => 0)
      (fun _ n => n) (fun n => n) [] = Except.ok usm
    ∧ usm 0 0 = 1 ∧ ¬(usm 0 0 = 2/3) := by
  refine ⟨driver7_ok, ?_, ?_⟩ <;>
  · rw [usm_val 0 0 (by omega) (by omega)]
    norm_num

/-- C7 (amended): a single order-1, 2D high-order element covering the
unit square, with no essential dofs, assembles (successfully, via the
driver) to the corner-quadrature Q1 Laplacian: every diagonal entry is 1,
every edge-adjacent off-diagonal entry is -1/2 (the entries at tensor
positions differing in exactly one coordinate), and every
diagonally-opposite off-diagonal entry is 0 (the entries with r + c = 3,
r ≠ c, under the identity dof numbering). -/
theorem unit_square_corner_quadrature_q1 (r c : ℕ) (hr : r < 4) (hc : c < 4) :
    AssembleBatchedLOR true 2 1 1 1 (fun _ => 0) (fun _ => 0)
      unitSquareJ glWeight2D (fun _ _ _ => 0)
      (fun _ => 0) (fun _ => 0) (fun _ => 0) (fun _ => 0)
      (fun _ n => n) (fun n => n) [] = Except.ok usm
    ∧ usm r c = if r = c then 1 else (if r + c = 3 then 0 else -(1/2)) :=
  ⟨driver7_ok, usm_val r c hr hc⟩

/-- Witness for the amended C7 at a concrete entry: the edge-adjacent
entry (0, 1). -/
theorem unit_square_corner_quadrature_q1_witness :
    AssembleBatchedLOR true 2 1 1 1 (fun _ => 0) (fun _ => 0)
      unitSquareJ glWeight2D (fun _ _ _ => 0)
      (fun _ => 0) (fun _ => 0) (fun _ => 0) (fun _ => 0)
      (fun _ n => n) (fun n => n) [] = Except.ok usm
    ∧ usm 0 1 = if 0 = 1 then 1 else (if 0 + 1 = 3 then 0 else -(1/2)) :=
  unit_square_corner_quadrature_q1 0 1 (by omega) (by omega)

/-! ## Spec-side formulation of the 3D geometric factors (for C9) -/

/-- Spec side: gradient component `r` of the `i`-th trilinear shape
function of the reference cube at `(x, y, z)` (vertex ordering as in the
source comment, lines 250–251). -/
def shapeGrad (i r : ℕ) (x y z : ℚ) : ℚ :=
  if i = 0 then
    (if r = 0 then -((1-y)*(1-z)) else if r = 1 then -((1-x)*(1-z)) else -((1-x)*(1-y)))
  else if i = 1 then
    (if r = 0 then (1-y)*(1-z) else if r = 1 then -(x*(1-z)) else -(x*(1-y)))
  else if i = 2 then
    (if r = 0 then y*(1-z) else if r = 1 then x*(1-z) else -(x*y))
  else if i = 3 then
    (if r = 0 then -(y*(1-z)) else if r = 1 then (1-x)*(1-z) else -((1-x)*y))
  else if i = 4 then
    (if r = 0 then -((1-y)*z) else if r = 1 then -((1-x)*z) else (1-x)*(1-y))
  else if i = 5 then
    (if r = 0 then (1-y)*z else if r = 1 then -(x*z) else x*(1-y))
  else if i = 6 then
    (if r = 0 then y*z else if r = 1 then x*z else x*y)
  else
    (if r = 0 then -(y*z) else if r = 1 then (1-x)*z else (1-x)*y)

/-- Spec side: entry `(r, s)` of the Jacobian of the trilinear map of the
cell's 8 vertices, `J_rs = ∑ i, vert(i)_r · ∂ shape_i / ∂ξ_s`. -/
def specJ3 (vert : ℕ → ℕ → ℕ → ℚ) (l : ℕ) (x y z : ℚ) (r s : ℕ) : ℚ :=
  ∑ i in Finset.range 8, vert l i r * shapeGrad i s x y z

/-- Spec side: 3×3 determinant by the standard cofactor expansion along
the first column. -/
def det3 (M : ℕ → ℕ → ℚ) : ℚ :=
  M 0 0 * (M 1 1 * M 2 2 - M 2 1 * M 1 2)
    - M 1 0 * (M 0 1 * M 2 2 - M 2 1 * M 0 2)
    + M 2 0 * (M 0 1 * M 1 2 - M 1 1 * M 0 2)

/-- Spec side: the adjugate of a 3×3 matrix, entrywise from 2×2
cofactors. -/
def adj3 (M : ℕ → ℕ → ℚ) (r s : ℕ) : ℚ :=
  if r = 0 ∧ s = 0 then M 1 1 * M 2 2 - M 1 2 * M 2 1
  else if r = 0 ∧ s = 1 then -(M 0 1 * M 2 2 - M 0 2 * M 2 1)
  else if r = 0 ∧ s = 2 then M 0 1 * M 1 2 - M 0 2 * M 1 1
  else if r = 1 ∧ s = 0 then -(M 1 0 * M 2 2 - M 1 2 * M 2 0)
  else if r = 1 ∧ s = 1 then M 0 0 * M 2 2 - M 0 2 * M 2 0
  else if r = 1 ∧ s = 2 then -(M 0 0 * M 1 2 - M 0 2 * M 1 0)
  else if r = 2 ∧ s = 0 then M 1 0 * M 2 1 - M 1 1 * M 2 0
  else if r = 2 ∧ s = 1 then -(M 0 0 * M 2 1 - M 0 1 * M 2 0)
  else M 0 0 * M 1 1 - M 0 1 * M 1 0

/-- The code's expanded `∂/∂x` column (lines 253–255, 263–265, 273–275)
agrees with the trilinear-map Jacobian entry `(r, 0)`. -/
theorem codeJx_eq (vert : ℕ → ℕ → ℕ → ℚ) (l : ℕ) (x y z : ℚ) (r : ℕ) :
    -(1-y)*(1-z)*vert l 0 r + (1-y)*(1-z)*vert l 1 r + y*(1-z)*vert l 2 r
      - y*(1-z)*vert l 3 r - (1-y)*z*vert l 4 r + (1-y)*z*vert l 5 r
      + y*z*vert l 6 r - y*z*vert l 7 r = specJ3 vert l x y z r 0 := by
  simp [specJ3, shapeGrad, Finset.sum_range_succ]
  ring

/-- The code's expanded `∂/∂y` column (lines 256–258, 266–268, 276–278)
agrees with the trilinear-map Jacobian entry `(r, 1)`. -/
theorem codeJy_eq (vert : ℕ → ℕ → ℕ → ℚ) (l : ℕ) (x y z : ℚ) (r : ℕ) :
    -(1-x)*(1-z)*vert l 0 r - x*(1-z)*vert l 1 r + x*(1-z)*vert l 2 r
      + (1-x)*(1-z)*vert l 3 r - (1-x)*z*vert l 4 r - x*z*vert l 5 r
      + x*z*vert l 6 r + (1-x)*z*vert l 7 r = specJ3 vert l x y z r 1 := by
  simp [specJ3, shapeGrad, Finset.sum_range_succ]
  ring

/-- The code's expanded `∂/∂z` column (lines 259–261, 269–271, 279–281)
agrees with the trilinear-map Jacobian entry `(r, 2)`. -/
theorem codeJz_eq (vert : ℕ → ℕ → ℕ → ℚ) (l : ℕ) (x y z : ℚ) (r : ℕ) :
    -(1-x)*(1-y)*vert l 0 r - x*(1-y)*vert l 1 r - x*y*vert l 2 r
      - (1-x)*y*vert l 3 r + (1-x)*(1-y)*vert l 4 r + x*(1-y)*vert l 5 r
      + x*y*vert l 6 r + (1-x)*y*vert l 7 r = specJ3 vert l x y z r 2 := by
  simp [specJ3, shapeGrad, Finset.sum_range_succ]
  ring

/-- Spec side: entry `(r, s)` of `adj(J)·adj(J)ᵀ` (row `r` of the adjugate
dotted with row `s`). -/
def adjGram (M : ℕ → ℕ → ℚ) (r s : ℕ) : ℚ :=
  adj3 M r 0 * adj3 M s 0 + adj3 M r 1 * adj3 M s 1 + adj3 M r 2 * adj3 M s 2

/-- C9 (amended): in the 3D geometric factor cache, for every fine cell
and each of its 8 quadrature points, the Jacobian is formed from the
trilinear map of the cell's 8 vertices, `detJ` by the standard 3×3
cofactor expansion, the adjugate `A = adj(J)` entrywise from 2×2
cofactors, and the 6 stored components equal `w_detJ` times the
independent entries of `A·Aᵀ` (xx, xy, xz, yy, yz, zz) — the adjugate
Gram matrix of rows, not `Aᵀ·A` — with `w_detJ = weight/detJ`, written at
the slot indexed by (parent element, sub-cell index, quadrature point,
component). -/
theorem geom3D_metric_stored (vert : ℕ → ℕ → ℕ → ℚ) (w qx qy qz : ℕ → ℚ)
    (parent mt : ℕ → ℕ) (nel_lor l q c : ℕ)
    (hl : l < nel_lor) (hq : q < 8) (hc : c < 6)
    (hinj : ∀ l₁ l₂, l₁ < nel_lor → l₂ < nel_lor →
      parent l₁ = parent l₂ → mt l₁ = mt l₂ → l₁ = l₂) :
    geom3D vert w qx qy qz parent mt nel_lor c q (mt l) (parent l) =
      (w q / det3 (specJ3 vert l (qx q) (qy q) (qz q))) *
        (if c = 0 then adjGram (specJ3 vert l (qx q) (qy q) (qz q)) 0 0
         else if c = 1 then adjGram (specJ3 vert l (qx q) (qy q) (qz q)) 1 0
         else if c = 2 then adjGram (specJ3 vert l (qx q) (qy q) (qz q)) 2 0
         else if c = 3 then adjGram (specJ3 vert l (qx q) (qy q) (qz q)) 1 1
         else if c = 4 then adjGram (specJ3 vert l (qx q) (qy q) (qz q)) 2 1
         else adjGram (specJ3 vert l (qx q) (qy q) (qz q)) 2 2) := by
  have key : geom3D vert w qx qy qz parent mt nel_lor c q (mt l) (parent l)
      = metric3D vert w qx qy qz l q c := by
    unfold geom3D
    refine foldl_observe (geomStep3D vert w qx qy qz parent mt)
      (fun b => b c q (mt l) (parent l))
      (fun l' => mt l' = mt l ∧ parent l' = parent l)
      (metric3D vert w qx qy qz l q c) (List.range nel_lor) ?_ ?_ _ ?_
    · rintro b l' hl' ⟨hm, hp⟩
      have he : l' = l := hinj l' l (List.mem_range.mp hl') hl hp hm
      subst he
      simp only [geomStep3D_eval]
      simp [hc, hq]
    · intro b l' hl' hn
      simp only [geomStep3D_eval]
      rw [if_neg]
      rintro ⟨_, _, hm, hp⟩
      exact hn ⟨hm.symm, hp.symm⟩
    · exact ⟨l, List.mem_range.mpr hl, rfl, rfl⟩
  rw [key]
  simp only [metric3D]
  rw [codeJx_eq vert l (qx q) (qy q) (qz q) 0, codeJx_eq vert l (qx q) (qy q) (qz q) 1,
    codeJx_eq vert l (qx q) (qy q) (qz q) 2,
    codeJy_eq vert l (qx q) (qy q) (qz q) 0, codeJy_eq vert l (qx q) (qy q) (qz q) 1,
    codeJy_eq vert l (qx q) (qy q) (qz q) 2,
    codeJz_eq vert l (qx q) (qy q) (qz q) 0, codeJz_eq vert l (qx q) (qy q) (qz q) 1,
    codeJz_eq vert l (qx q) (qy q) (qz q) 2]
  simp only [det3, adjGram, adj3]
  norm_num
  split_ifs <;> ring

/-- A concrete parallelepiped lor cell: vertices (0,0,0), (1,0,0),
(3,1,0), (2,1,0), (0,0,1), (1,0,1), (3,1,1), (2,1,1); its (constant)
Jacobian is [[1,2,0],[0,1,0],[0,0,1]], whose adjugate is not normal. -/
def cexVert : ℕ → ℕ → ℕ → ℚ := fun _ v k =>
  if k = 0 then
    (if v = 1 ∨ v = 5 then 1 else if v = 2 ∨ v = 6 then 3
     else if v = 3 ∨ v = 7 then 2 else 0)
  else if k = 1 then (if v = 2 ∨ v = 3 ∨ v = 6 ∨ v = 7 then 1 else 0)
  else (if v = 4 ∨ v = 5 ∨ v = 6 ∨ v = 7 then 1 else 0)

/-- Modelled from the spec: the 2-point-per-axis Gauss–Lobatto corner rule
on the unit cube — point `iq` has coordinates `(iq%2, iq/2%2, iq/4)`. -/
def qx3 : ℕ → ℚ := fun iq => if iq % 2 = 0 then 0 else 1

/-- Modelled from the spec: y-coordinate of corner-rule point `iq`. -/
def qy3 : ℕ → ℚ := fun iq => if (iq / 2) % 2 = 0 then 0 else 1

/-- Modelled from the spec: z-coordinate of corner-rule point `iq`. -/
def qz3 : ℕ → ℚ := fun iq => if iq / 4 = 0 then 0 else 1

/-- Modelled from the spec: corner-rule weights on the unit cube, 1/8
each. -/
def glWeight3D : ℕ → ℚ := fun _ => 1/8

/-- C9 counterexample: on the concrete parallelepiped cell, the stored
xx-component at quadrature point 0 is 5/8 — `w_detJ` times the xx entry of
`A·Aᵀ` — while `w_detJ` times the xx entry of `Aᵀ·A` (as the claim states)
is 1/8; the two differ, so the stored components are not the entries of
`Aᵀ·A`. -/
theorem geom3D_not_transpose_adjugate :
    geom3D cexVert glWeight3D qx3 qy3 qz3 (fun _ => 0) (fun _ => 0) 1 0 0 0 0 = 5/8
    ∧ (glWeight3D 0 / det3 (specJ3 cexVert 0 (qx3 0) (qy3 0) (qz3 0))) *
        (adj3 (specJ3 cexVert 0 (qx3 0) (qy3 0) (qz3 0)) 0 0
            * adj3 (specJ3 cexVert 0 (qx3 0) (qy3 0) (qz3 0)) 0 0
          + adj3 (specJ3 cexVert 0 (qx3 0) (qy3 0) (qz3 0)) 1 0
            * adj3 (specJ3 cexVert 0 (qx3 0) (qy3 0) (qz3 0)) 1 0
          + adj3 (specJ3 cexVert 0 (qx3 0) (qy3 0) (qz3 0)) 2 0
            * adj3 (specJ3 cexVert 0 (qx3 0) (qy3 0) (qz3 0)) 2 0) = 1/8
    ∧ (5/8 : ℚ) ≠ 1/8 := by
  refine ⟨?_, ?_, by norm_num⟩
  · have h1 : List.range 1 = [0] := rfl
    have key : geom3D cexVert glWeight3D qx3 qy3 qz3 (fun _ => 0) (fun _ => 0) 1 0 0 0 0
        = metric3D cexVert glWeight3D qx3 qy3 qz3 0 0 0 := by
      simp only [geom3D, h1, List.foldl_cons, List.foldl_nil]
      rw [geomStep3D_eval]
      norm_num
    rw [key]
    norm_num [metric3D, cexVert, qx3, qy3, qz3, glWeight3D]
  · norm_num [specJ3, shapeGrad, Finset.sum_range_succ, Finset.sum_range_zero,
      det3, adj3, cexVert, qx3, qy3, qz3, glWeight3D]

/-- Witness for the amended C9 at a concrete input: the parallelepiped
cell, quadrature point 0, component 0. -/
theorem geom3D_metric_stored_witness :
    geom3D cexVert glWeight3D qx3 qy3 qz3 (fun _ => 0) (fun _ => 0) 1 0 0
        ((fun _ => (0:ℕ)) 0) ((fun _ => (0:ℕ)) 0) =
      (glWeight3D 0 / det3 (specJ3 cexVert 0 (qx3 0) (qy3 0) (qz3 0))) *
        (if (0:ℕ) = 0 then adjGram (specJ3 cexVert 0 (qx3 0) (qy3 0) (qz3 0)) 0 0
         else if (0:ℕ) = 1 then adjGram (specJ3 cexVert 0 (qx3 0) (qy3 0) (qz3 0)) 1 0
         else if (0:ℕ) = 2 then adjGram (specJ3 cexVert 0 (qx3 0) (qy3 0) (qz3 0)) 2 0
         else if (0:ℕ) = 3 then adjGram (specJ3 cexVert 0 (qx3 0) (qy3 0) (qz3 0)) 1 1
         else if (0:ℕ) = 4 then adjGram (specJ3 cexVert 0 (qx3 0) (qy3 0) (qz3 0)) 2 1
         else adjGram (specJ3 cexVert 0 (qx3 0) (qy3 0) (qz3 0)) 2 2) :=
  geom3D_metric_stored cexVert glWeight3D qx3 qy3 qz3 (fun _ => 0) (fun _ => 0)
    1 0 0 0 (by omega) (by omega) (by omega) (fun l₁ l₂ h₁ h₂ _ _ => by omega)

/-- C10: the 8×8 local dense matrix is reset to zero at the start of every
sub-cell iteration (`local_mat = 0.0`, line 375), so the local matrix
computed for sub-cell `(kx,ky,kz)` depends only on that sub-cell's own
metric-tensor slots `invJ(·, ·, kx + ky*p + kz*p², iel)` and not on the
local-matrix state `prev` left by previously processed sub-cells or
elements. -/
theorem subcell_local_mat_fresh (p : ℕ) (buf buf' : Buf) (iel kx ky kz : ℕ)
    (prev prev' : ℕ → ℚ)
    (h : ∀ c q, buf c q (kx + ky * p + kz * p * p) iel
      = buf' c q (kx + ky * p + kz * p * p) iel) :
    subcellStep p buf iel kx ky kz prev = subcellStep p buf' iel kx ky kz prev' := by
  have hv : ∀ iqx iqy iqz jx jy jz ix iy iz : ℕ,
      localVal3D buf iel (kx + ky * p + kz * p * p) iqx iqy iqz jx jy jz ix iy iz
        = localVal3D buf' iel (kx + ky * p + kz * p * p) iqx iqy iqz jx jy jz ix iy iz := by
    intro iqx iqy iqz jx jy jz ix iy iz
    simp only [localVal3D, h]
  simp only [subcellStep, hv]

/-- Witness for C10 at a concrete input: two buffers agreeing on the
sub-cell's slots but differing elsewhere, and different previous local
states. -/
theorem subcell_local_mat_fresh_witness :
    subcellStep 1 (fun _ _ r _ => if r = 9 then 7 else 0) 0 0 0 0 (fun _ => 5)
      = subcellStep 1 (fun _ _ _ _ => 0) 0 0 0 0 (fun _ => 0) :=
  subcell_local_mat_fresh 1 (fun _ _ r _ => if r = 9 then 7 else 0)
    (fun _ _ _ _ => 0) 0 0 0 0 (fun _ => 5) (fun _ => 0)
    (fun c q => by norm_num)

/-- On the 3D path the driver always returns the eliminated, finalized
empty matrix, whatever the order. -/
theorem driver3D_eq (p nel_ho nel_lor : ℕ) (parent mt : ℕ → ℕ)
    (J2 : ℕ → ℕ → ℕ → ℕ → ℚ) (w2 : ℕ → ℚ) (vert : ℕ → ℕ → ℕ → ℚ)
    (w qx qy qz : ℕ → ℚ) (dofs : ℕ → ℕ → ℕ) (lex : ℕ → ℕ) (ess : List ℕ) :
    AssembleBatchedLOR true 3 p nel_ho nel_lor parent mt J2 w2
        vert w qx qy qz dofs lex ess
      = Except.ok (finalize (ess.foldl eliminateRowColKeep (fun _ _ => 0))) := by
  have h2 : (Assemble3DBatchedLOR p nel_ho nel_lor parent mt vert w qx qy qz
      dofs lex (fun _ _ => 0)).2 = (fun _ _ => (0:ℚ)) := rfl
  simp only [AssembleBatchedLOR]
  split_ifs <;> first | rfl | rw [h2] | simp_all

/-- C1: the 3D kernel computes the 8×8 local matrices but never scatters
them into the global sparse matrix: the matrix passed to
`Assemble3DBatchedLOR` is returned entirely unchanged, and consequently
the assembled 3D output of the driver (for any order) is the eliminated,
finalized empty matrix — every entry is zero. -/
theorem assemble3D_no_scatter (p nel_ho nel_lor : ℕ) (parent mt : ℕ → ℕ)
    (vert : ℕ → ℕ → ℕ → ℚ) (w qx qy qz : ℕ → ℚ)
    (dofs : ℕ → ℕ → ℕ) (lex : ℕ → ℕ) (A : Mat)
    (J2 : ℕ → ℕ → ℕ → ℕ → ℚ) (w2 : ℕ → ℚ) (ess : List ℕ) :
    (Assemble3DBatchedLOR p nel_ho nel_lor parent mt vert w qx qy qz
        dofs lex A).2 = A
    ∧ ∀ M, AssembleBatchedLOR true 3 p nel_ho nel_lor parent mt J2 w2
        vert w qx qy qz dofs lex ess = Except.ok M → ∀ i j, M i j = 0 := by
  constructor
  · rfl
  · intro M hM i j
    rw [driver3D_eq p nel_ho nel_lor parent mt J2 w2 vert w qx qy qz
      dofs lex ess] at hM
    injection hM with h
    subst h
    exact elimFold_zero ess _ i j rfl

/-- Witness for C1 at a concrete input: a 1-element order-1 3D setup with
a nonzero incoming matrix, and the driver's output entry (0,0). -/
theorem assemble3D_no_scatter_witness :
    (Assemble3DBatchedLOR 1 1 1 (fun _ => 0) (fun _ => 0) (fun _ _ _ => 0)
        (fun _ => 0) (fun _ => 0) (fun _ => 0) (fun _ => 0)
        (fun _ n => n) (fun n => n) (fun i j => ((i + j : ℕ) : ℚ))).2
      = (fun i j => ((i + j : ℕ) : ℚ))
    ∧ (fun _ _ => (0:ℚ)) 0 0 = 0 :=
  ⟨(assemble3D_no_scatter 1 1 1 (fun _ => 0) (fun _ => 0) (fun _ _ _ => 0)
      (fun _ => 0) (fun _ => 0) (fun _ => 0) (fun _ => 0)
      (fun _ n => n) (fun n => n) (fun i j => ((i + j : ℕ) : ℚ))
      (fun _ _ _ _ => 0) (fun _ => 0) []).1,
   (assemble3D_no_scatter 1 1 1 (fun _ => 0) (fun _ => 0) (fun _ _ _ => 0)
      (fun _ => 0) (fun _ => 0) (fun _ => 0) (fun _ => 0)
      (fun _ n => n) (fun n => n) (fun i j => ((i + j : ℕ) : ℚ))
      (fun _ _ _ _ => 0) (fun _ => 0) []).2 (fun _ _ => 0) rfl 0 0⟩

end LOR
